import Mathlib

/-!
Verification of the suspense boundary and lazy loader of this repository
(src/suspense.ts, src/lazy.ts), via a shallow embedding of their state and
operations in Lean.

Boundary (class Suspense, src/suspense.ts):
  - fields: `_pendingCount` (a JS number, modelled as Int) and
    `state.suspended` (a Bool);
  - the `_childDidSuspend` handler (mangled `__c`) increments the counter,
    sets `suspended := true` unless the suspending vnode is hydrating, and
    attaches the same `onResolved` continuation to both the fulfillment and
    the rejection of the intercepted promise;
  - `onResolved` decrements the counter and, if the decremented value is
    `<= 0`, clamps it to `0` and clears `suspended`.  A per-registration
    `resolved` flag guarantees each registered signal contributes exactly one
    such step, which is why a settlement is modelled as one application of
    `onResolvedStep`.

The `options.__e` hook walks the parent chain of the throwing vnode and
delegates any thenable raised value to the nearest ancestor whose component
exposes the handler; everything else falls through to the previously
installed hook.

Lazy wrapper (function lazy, src/lazy.ts): closure state is a cached promise
(`promise`) and a cached resolved component (`component`).  `preload` and the
render path both start the load at most once; an unresolved render attaches a
re-render callback to the *fulfillment* of the cached promise (its rejection
gets no callback) and throws the promise; `loadModule` caches
`(m && m.default) || m` on fulfillment.
-/

namespace PreactSuspense

/-! ## Boundary state (class Suspense) -/

/-- The observable state of one `Suspense` instance: `_pendingCount` and
`state.suspended`.  The counter is an `Int` because it is a JS number that
the code decrements before clamping. -/
structure BoundaryState where
  pendingCount : Int
  suspended : Bool
deriving DecidableEq, Repr

/-- State established by the constructor: `_pendingCount = 0`,
`state = { suspended: false }`. -/
def initialBoundary : BoundaryState := { pendingCount := 0, suspended := false }

/-- One run of the `onResolved` continuation:
`c._pendingCount--; if (c._pendingCount <= 0) { c._pendingCount = 0;
c.setState({ suspended: false }); }`. -/
def onResolvedStep (s : BoundaryState) : BoundaryState :=
  if s.pendingCount - 1 ≤ 0 then { pendingCount := 0, suspended := false }
  else { pendingCount := s.pendingCount - 1, suspended := s.suspended }

/-- Preact's `MODE_HYDRATE` flag bit, `1 << 5`. -/
def MODE_HYDRATE : Nat := 2 ^ 5

/-- The two hydration indicators read off the suspending vnode: its `__u`
flags word (0 when unset) and the truthiness of its `__h` marker. -/
structure VNodeMarks where
  flags : Nat
  hydrating : Bool
deriving DecidableEq, Repr

/-- `!!(suspendingVNode.__u && (suspendingVNode.__u & MODE_HYDRATE)) ||
!!suspendingVNode.__h`: the flags word is truthy and contains the hydrate
bit, or the hydrating marker is truthy. -/
def isHydrating (v : VNodeMarks) : Bool :=
  (decide (v.flags ≠ 0) && decide (v.flags &&& MODE_HYDRATE ≠ 0)) || v.hydrating

/-- The state change performed synchronously by `_childDidSuspend`:
`c._pendingCount++`, then `c.setState({ suspended: true })` unless
hydrating. -/
def suspendStep (hyd : Bool) (s : BoundaryState) : BoundaryState :=
  if hyd then { pendingCount := s.pendingCount + 1, suspended := s.suspended }
  else { pendingCount := s.pendingCount + 1, suspended := true }

/-- What one call of `_childDidSuspend` produces: the new boundary state and
the pair of continuations passed to `promise.then(onResolved, onResolved)`
(first argument runs on fulfillment, second on rejection). -/
structure Registration where
  newState : BoundaryState
  onFulfilled : BoundaryState → BoundaryState
  onRejected : BoundaryState → BoundaryState

/-- The `__c` (`_childDidSuspend`) handler of `Suspense`, as a function of
the suspending vnode's hydration marks and the current boundary state. -/
def childDidSuspend (v : VNodeMarks) (s : BoundaryState) : Registration :=
  { newState := suspendStep (isHydrating v) s
    onFulfilled := onResolvedStep
    onRejected := onResolvedStep }

/-- Events a boundary instance undergoes during its lifetime: a registration
of a suspension (with the hydration flag computed at interception time) or
the settlement of one previously registered signal. -/
inductive BoundaryEvent where
  | register (hyd : Bool)
  | settle
deriving DecidableEq, Repr

/-- One lifetime step of the boundary. -/
def boundaryStep (s : BoundaryState) : BoundaryEvent → BoundaryState
  | .register hyd => suspendStep hyd s
  | .settle => onResolvedStep s

/-- The boundary state reached from construction after a list of events. -/
def runBoundary (evs : List BoundaryEvent) : BoundaryState :=
  evs.foldl boundaryStep initialBoundary

/-! ## Lemmas about the boundary steps -/

theorem suspendStep_false_iterate (k : Nat) :
    (suspendStep false)^[k + 1] initialBoundary =
      { pendingCount := (k : Int) + 1, suspended := true } := by
  induction k with
  | zero => rfl
  | succ k ih =>
      rw [Function.iterate_succ_apply', ih]
      simp only [suspendStep, if_neg (by simp : ¬ (false = true))]
      norm_num

theorem onResolvedStep_big (n : Int) (b : Bool) (h : 2 ≤ n) :
    onResolvedStep { pendingCount := n, suspended := b } =
      { pendingCount := n - 1, suspended := b } := by
  unfold onResolvedStep
  rw [if_neg (by simp; omega)]

theorem onResolvedStep_iterate (n j : Nat) (hj : j < n) :
    onResolvedStep^[j] { pendingCount := (n : Int), suspended := true } =
      { pendingCount := ((n - j : Nat) : Int), suspended := true } := by
  induction j generalizing n with
  | zero => simp
  | succ j ih =>
      rw [Function.iterate_succ_apply,
        onResolvedStep_big (n : Int) true (by exact_mod_cast by omega)]
      have hcast : ((n : Int) - 1) = (((n - 1 : Nat)) : Int) := by omega
      rw [hcast, ih (n - 1) (by omega)]
      congr 1
      omega

theorem onResolvedStep_suspended_false (s : BoundaryState)
    (h : s.suspended = false) : (onResolvedStep s).suspended = false := by
  unfold onResolvedStep
  split <;> simp [h]

theorem suspendStep_of_pos (hyd : Bool) (s : BoundaryState)
    (h : 0 ≤ s.pendingCount) : 0 ≤ (suspendStep hyd s).pendingCount := by
  unfold suspendStep
  split <;> simp <;> omega

theorem onResolvedStep_nonneg (s : BoundaryState) :
    0 ≤ (onResolvedStep s).pendingCount := by
  unfold onResolvedStep
  split
  · simp
  · simp
    omega

theorem boundaryStep_nonneg (s : BoundaryState) (e : BoundaryEvent)
    (h : 0 ≤ s.pendingCount) : 0 ≤ (boundaryStep s e).pendingCount := by
  cases e with
  | register hyd => exact suspendStep_of_pos hyd s h
  | settle => exact onResolvedStep_nonneg s

theorem foldl_boundary_nonneg (evs : List BoundaryEvent) (s : BoundaryState)
    (h : 0 ≤ s.pendingCount) :
    0 ≤ (evs.foldl boundaryStep s).pendingCount := by
  induction evs generalizing s with
  | nil => exact h
  | cons e rest ih =>
      exact ih (boundaryStep s e) (boundaryStep_nonneg s e h)

/-! ## Claim theorems for the boundary -/

/-- Claim C1: for a boundary that registers N pending-value signals during
one non-hydration pass, `suspended` becomes true at the first registration
and remains true through every later registration and through the first
N - 1 settlements; the resume transition (suspended cleared, counter back to
0) happens exactly at the Nth settlement.  Settlement order is immaterial
because every registered signal settles through the very same `onResolved`
continuation (theorem `settlement_continuations_identical`), so any
settlement order is the same sequence of `onResolvedStep` applications. -/
theorem suspense_joins_on_all_settlements (n k j : Nat)
    (hk1 : 1 ≤ k) (hkn : k ≤ n) (hj : j < n) :
    ((suspendStep false)^[k] initialBoundary).suspended = true ∧
    ((suspendStep false)^[n] initialBoundary).pendingCount = (n : Int) ∧
    (onResolvedStep^[j] ((suspendStep false)^[n] initialBoundary)).suspended
      = true ∧
    onResolvedStep^[n] ((suspendStep false)^[n] initialBoundary)
      = initialBoundary := by
  have hn : 1 ≤ n := le_trans hk1 hkn
  obtain ⟨k, rfl⟩ : ∃ m, k = m + 1 := ⟨k - 1, by omega⟩
  obtain ⟨n, rfl⟩ : ∃ m, n = m + 1 := ⟨n - 1, by omega⟩
  have hshape :
      ({ pendingCount := (n : Int) + 1, suspended := true } :
        BoundaryState) =
      { pendingCount := ((n + 1 : Nat) : Int), suspended := true } := by
    norm_num
  rw [suspendStep_false_iterate k, suspendStep_false_iterate n, hshape,
    onResolvedStep_iterate (n + 1) j hj]
  have hfinal :
      onResolvedStep^[n + 1]
          ({ pendingCount := ((n + 1 : Nat) : Int), suspended := true } :
            BoundaryState) = initialBoundary := by
    rw [Function.iterate_succ_apply']
    rw [onResolvedStep_iterate (n + 1) n (by omega)]
    have : ((n + 1 - n : Nat) : Int) = 1 := by omega
    rw [this]
    unfold onResolvedStep initialBoundary
    norm_num
  exact ⟨rfl, rfl, rfl, hfinal⟩

/-- Closed instance of `suspense_joins_on_all_settlements` at N = 2 signals,
checked after the first registration and the first settlement. -/
theorem suspense_joins_on_all_settlements_witness :
    ((suspendStep false)^[1] initialBoundary).suspended = true ∧
    ((suspendStep false)^[2] initialBoundary).pendingCount = (2 : Int) ∧
    (onResolvedStep^[1] ((suspendStep false)^[2] initialBoundary)).suspended
      = true ∧
    onResolvedStep^[2] ((suspendStep false)^[2] initialBoundary)
      = initialBoundary :=
  suspense_joins_on_all_settlements 2 1 1 (by norm_num) (by norm_num)
    (by norm_num)

/-- Claim C2: right after construction the boundary has `suspended = false`
and `_pendingCount = 0`; along every event sequence the counter stays
nonnegative; and at any reachable state, a step that clears `suspended`
(from true to false) leaves the counter exactly 0 — `suspended` is cleared
only when the counter reaches zero.  The quantification over arbitrary event
lists covers re-suspension after a resume. -/
theorem boundary_counter_invariant (evs : List BoundaryEvent)
    (e : BoundaryEvent) :
    initialBoundary.suspended = false ∧
    initialBoundary.pendingCount = 0 ∧
    0 ≤ (runBoundary evs).pendingCount ∧
    ((runBoundary evs).suspended = true →
      (boundaryStep (runBoundary evs) e).suspended = false →
      (boundaryStep (runBoundary evs) e).pendingCount = 0) := by
  refine ⟨rfl, rfl, ?_, ?_⟩
  · exact foldl_boundary_nonneg evs initialBoundary (by simp [initialBoundary])
  · intro hsusp hclear
    cases e with
    | register hyd =>
        exfalso
        revert hclear
        simp only [boundaryStep, suspendStep]
        split <;> simp [hsusp]
    | settle =>
        revert hclear
        simp only [boundaryStep, onResolvedStep]
        split <;> simp [hsusp]

/-- Closed instance of `boundary_counter_invariant`: one non-hydration
registration followed by a settle step. -/
theorem boundary_counter_invariant_witness :
    initialBoundary.suspended = false ∧
    initialBoundary.pendingCount = 0 ∧
    0 ≤ (runBoundary [BoundaryEvent.register false]).pendingCount ∧
    ((runBoundary [BoundaryEvent.register false]).suspended = true →
      (boundaryStep (runBoundary [BoundaryEvent.register false])
          BoundaryEvent.settle).suspended = false →
      (boundaryStep (runBoundary [BoundaryEvent.register false])
          BoundaryEvent.settle).pendingCount = 0) :=
  boundary_counter_invariant [BoundaryEvent.register false]
    BoundaryEvent.settle

/-- The hydrate bit being set in the flags word makes the word nonzero, so
the `!!(__u && (__u & MODE_HYDRATE))` conjunction reduces to the bit test. -/
theorem isHydrating_of_marks (v : VNodeMarks)
    (h : v.flags &&& MODE_HYDRATE ≠ 0 ∨ v.hydrating = true) :
    isHydrating v = true := by
  unfold isHydrating
  rcases h with h | h
  · have hne : v.flags ≠ 0 := by
      intro h0
      rw [h0] at h
      simp [Nat.zero_and] at h
    simp [hne, h]
  · simp [h]

/-- Claim C3: when the suspending vnode carries the hydrate flag bit or a
truthy hydrating marker, `_childDidSuspend` leaves `suspended` untouched
(false stays false, so the fallback is never shown), still increments the
pending counter, and after the signal settles — through either attached
continuation — `suspended` is still false. -/
theorem hydration_never_sets_suspended (v : VNodeMarks) (s : BoundaryState)
    (hhyd : v.flags &&& MODE_HYDRATE ≠ 0 ∨ v.hydrating = true)
    (hs : s.suspended = false) :
    ((childDidSuspend v s).newState).suspended = false ∧
    ((childDidSuspend v s).newState).pendingCount = s.pendingCount + 1 ∧
    ((childDidSuspend v s).onFulfilled
        ((childDidSuspend v s).newState)).suspended = false ∧
    ((childDidSuspend v s).onRejected
        ((childDidSuspend v s).newState)).suspended = false := by
  have hmark := isHydrating_of_marks v hhyd
  have hstate : (childDidSuspend v s).newState =
      { pendingCount := s.pendingCount + 1, suspended := s.suspended } := by
    simp [childDidSuspend, suspendStep, hmark]
  refine ⟨?_, ?_, ?_, ?_⟩
  · rw [hstate]; exact hs
  · rw [hstate]
  · exact onResolvedStep_suspended_false _ (by rw [hstate]; exact hs)
  · exact onResolvedStep_suspended_false _ (by rw [hstate]; exact hs)

/-- Closed instance of `hydration_never_sets_suspended` at a vnode whose
flags word is exactly the hydrate bit, from the freshly constructed
boundary. -/
theorem hydration_never_sets_suspended_witness :
    ((childDidSuspend ⟨32, false⟩ initialBoundary).newState).suspended
      = false ∧
    ((childDidSuspend ⟨32, false⟩ initialBoundary).newState).pendingCount
      = initialBoundary.pendingCount + 1 ∧
    ((childDidSuspend ⟨32, false⟩ initialBoundary).onFulfilled
        ((childDidSuspend ⟨32, false⟩ initialBoundary).newState)).suspended
      = false ∧
    ((childDidSuspend ⟨32, false⟩ initialBoundary).onRejected
        ((childDidSuspend ⟨32, false⟩ initialBoundary).newState)).suspended
      = false :=
  hydration_never_sets_suspended ⟨32, false⟩ initialBoundary
    (Or.inl (by decide)) rfl

/-- Claim C4: `_childDidSuspend` passes the very same `onResolved` function
as both the fulfillment and the rejection continuation of
`promise.then(onResolved, onResolved)`, so a rejecting signal has exactly
the effect on the boundary state (decrement, clamp, maybe clear
`suspended`) that a fulfilling one has. -/
theorem settlement_continuations_identical (v : VNodeMarks)
    (s t : BoundaryState) :
    (childDidSuspend v s).onFulfilled = (childDidSuspend v s).onRejected ∧
    (childDidSuspend v s).onFulfilled t = onResolvedStep t ∧
    (childDidSuspend v s).onRejected t = onResolvedStep t :=
  ⟨rfl, rfl, rfl⟩

/-! ## The installed catch-error hook (options.__e) -/

/-- What the hook can observe of a raised value: whether the value itself is
truthy and whether its `then` member is truthy (`err && err.then`). -/
structure RaisedValue where
  truthy : Bool
  hasThen : Bool
deriving DecidableEq, Repr

/-- Where the hook sends a raised value: to the registration handler of the
ancestor at a given distance up the parent chain, or through to the
previously installed hook. -/
inductive CatchOutcome where
  | delegated (index : Nat)
  | forwardedToPrior
deriving DecidableEq, Repr

/-- The ancestor chain of the throwing vnode, nearest parent first; an entry
is `some b` when that vnode's component exposes the `__c` registration
handler (with boundary state `b`), `none` otherwise. -/
def findBoundaryIndex : List (Option BoundaryState) → Option Nat
  | [] => none
  | some _ :: _ => some 0
  | none :: rest => (findBoundaryIndex rest).map Nat.succ

/-- Apply a state change to the boundary at one position of the chain,
leaving every other entry untouched. -/
def updateBoundaryAt (f : BoundaryState → BoundaryState) :
    Nat → List (Option BoundaryState) → List (Option BoundaryState)
  | _, [] => []
  | 0, b :: rest => b.map f :: rest
  | i + 1, b :: rest => b :: updateBoundaryAt f i rest

/-- Whether the chain entry at a position exposes a registration handler. -/
def hasHandlerAt (ancestors : List (Option BoundaryState)) (i : Nat) :
    Bool :=
  match ancestors.get? i with
  | some (some _) => true
  | _ => false

/-- The installed `options.__e` hook: when `err && err.then`, walk the parent
chain (`while ((v = v.__))`) and invoke the `__c` handler of the first
ancestor that has one (which performs the state change of
`childDidSuspend`); in every other case — the raised value is not a
thenable, or no ancestor exposes a handler — fall through to the previously
installed hook with everything unchanged. -/
def catchError (err : RaisedValue) (v : VNodeMarks)
    (ancestors : List (Option BoundaryState)) :
    CatchOutcome × List (Option BoundaryState) :=
  if err.truthy && err.hasThen then
    match findBoundaryIndex ancestors with
    | some i =>
        (.delegated i, updateBoundaryAt (suspendStep (isHydrating v)) i
          ancestors)
    | none => (.forwardedToPrior, ancestors)
  else (.forwardedToPrior, ancestors)

theorem findBoundaryIndex_spec (ancestors : List (Option BoundaryState))
    (i : Nat) (h : findBoundaryIndex ancestors = some i) :
    hasHandlerAt ancestors i = true ∧
      ∀ j, j < i → hasHandlerAt ancestors j = false := by
  induction ancestors generalizing i with
  | nil => simp [findBoundaryIndex] at h
  | cons hd rest ih =>
      cases hd with
      | some b =>
          simp [findBoundaryIndex] at h
          subst h
          exact ⟨rfl, fun j hj => absurd hj (by omega)⟩
      | none =>
          simp [findBoundaryIndex] at h
          obtain ⟨i0, hi0, rfl⟩ := h
          obtain ⟨h1, h2⟩ := ih i0 hi0
          refine ⟨h1, ?_⟩
          intro j hj
          cases j with
          | zero => rfl
          | succ j0 =>
              exact h2 j0 (by omega)

theorem updateBoundaryAt_other (f : BoundaryState → BoundaryState)
    (i j : Nat) (ancestors : List (Option BoundaryState)) (h : j ≠ i) :
    (updateBoundaryAt f i ancestors).get? j = ancestors.get? j := by
  induction ancestors generalizing i j with
  | nil => cases i <;> rfl
  | cons hd rest ih =>
      cases i with
      | zero =>
          cases j with
          | zero => exact absurd rfl h
          | succ j0 => rfl
      | succ i0 =>
          cases j with
          | zero => rfl
          | succ j0 =>
              show (updateBoundaryAt f i0 rest).get? j0 = rest.get? j0
              exact ih i0 j0 (by omega)

/-- Claim C5: the hook delegates a raised value only when `err && err.then`
holds (a delegation outcome certifies the value exposes a settlement
interface); any raised value failing that test is passed through to the
previously installed interception behavior with the whole chain untouched;
a delegated value goes to the nearest ancestor exposing a registration
handler — every strictly closer ancestor has none — and every chain entry
other than the delegated one keeps its exact previous state. -/
theorem hook_delegates_nearest_boundary (err : RaisedValue) (v : VNodeMarks)
    (ancestors : List (Option BoundaryState)) (i j : Nat) :
    (¬ (err.truthy = true ∧ err.hasThen = true) →
      catchError err v ancestors
        = (CatchOutcome.forwardedToPrior, ancestors)) ∧
    ((catchError err v ancestors).1 = CatchOutcome.delegated i →
      (err.truthy = true ∧ err.hasThen = true) ∧
      hasHandlerAt ancestors i = true ∧
      (j < i → hasHandlerAt ancestors j = false) ∧
      (j ≠ i →
        (catchError err v ancestors).2.get? j = ancestors.get? j)) := by
  constructor
  · intro hne
    unfold catchError
    rw [if_neg]
    rw [Bool.and_eq_true]
    exact hne
  · intro hdel
    by_cases hc : (err.truthy && err.hasThen) = true
    · have hc' := hc
      rw [Bool.and_eq_true] at hc'
      unfold catchError at hdel ⊢
      rw [if_pos hc] at hdel ⊢
      cases hfb : findBoundaryIndex ancestors with
      | none =>
          rw [hfb] at hdel
          simp at hdel
      | some i0 =>
          rw [hfb] at hdel
          simp at hdel
          subst hdel
          obtain ⟨h1, h2⟩ := findBoundaryIndex_spec ancestors i0 hfb
          exact ⟨hc', h1, fun hj => h2 j hj, fun hj =>
            updateBoundaryAt_other _ i0 j ancestors hj⟩
    · unfold catchError at hdel
      rw [if_neg hc] at hdel
      simp at hdel

/-- An example ancestor chain: the direct parent exposes no handler, the
next ancestor is a fresh boundary, and an outer boundary beyond is already
suspended with three pending signals. -/
def ancChainExample : List (Option BoundaryState) :=
  [none, some initialBoundary, some { pendingCount := 3, suspended := true }]

/-- Closed instance of `hook_delegates_nearest_boundary`: a truthy value
without `then` is forwarded; a thenable is delegated to the boundary at
distance 1 (distance 0 has no handler) and the outer boundary at distance 2
is left untouched. -/
theorem hook_delegates_nearest_boundary_witness :
    catchError ⟨true, false⟩ ⟨0, false⟩ ancChainExample
      = (CatchOutcome.forwardedToPrior, ancChainExample) ∧
    (catchError ⟨true, true⟩ ⟨0, false⟩ ancChainExample).1
      = CatchOutcome.delegated 1 ∧
    hasHandlerAt ancChainExample 1 = true ∧
    hasHandlerAt ancChainExample 0 = false ∧
    (catchError ⟨true, true⟩ ⟨0, false⟩ ancChainExample).2.get? 2
      = ancChainExample.get? 2 :=
  ⟨(hook_delegates_nearest_boundary ⟨true, false⟩ ⟨0, false⟩
      ancChainExample 1 0).1 (by decide),
   by decide,
   ((hook_delegates_nearest_boundary ⟨true, true⟩ ⟨0, false⟩
      ancChainExample 1 0).2 (by decide)).2.1,
   ((hook_delegates_nearest_boundary ⟨true, true⟩ ⟨0, false⟩
      ancChainExample 1 0).2 (by decide)).2.2.1 (by decide),
   ((hook_delegates_nearest_boundary ⟨true, true⟩ ⟨0, false⟩
      ancChainExample 1 2).2 (by decide)).2.2.2 (by decide)⟩

/-! ## Boundary render output (Suspense.render) -/

/-- The value returned by `Suspense.render`: the literal `null`, or
`createElement(Fragment, null, x)` — a neutral grouping container around
`x`, where `x` may itself be absent (`children` undefined). -/
inductive RenderOutput (α : Type) where
  | nullOutput
  | fragment (child : Option α)
deriving DecidableEq, Repr

/-- `Suspense.render`: if `suspended` then
`fallback != null ? createElement(Fragment, null, fallback) : null`,
otherwise `createElement(Fragment, null, children)`. -/
def suspenseRender {α : Type} (suspended : Bool)
    (fallback children : Option α) : RenderOutput α :=
  if suspended then
    match fallback with
    | some f => .fragment (some f)
    | none => .nullOutput
  else .fragment children

/-- An output that produces no content: the literal `null`, or a grouping
container with nothing in it. -/
def effectivelyEmpty {α : Type} : RenderOutput α → Bool
  | .nullOutput => true
  | .fragment none => true
  | .fragment (some _) => false

/-- Claim C6: while suspended the boundary renders the fallback wrapped in
the neutral grouping container, and renders `null` (empty) when no fallback
is given; while not suspended it renders the children wrapped in the same
container, which is effectively empty when children is absent. -/
theorem suspense_render_cases {α : Type} (fallback children : Option α)
    (f : α) :
    suspenseRender true (some f) children = RenderOutput.fragment (some f) ∧
    suspenseRender true none children = RenderOutput.nullOutput ∧
    effectivelyEmpty (suspenseRender true (none : Option α) children)
      = true ∧
    suspenseRender false fallback children = RenderOutput.fragment children ∧
    effectivelyEmpty (suspenseRender false fallback (none : Option α))
      = true := by
  refine ⟨rfl, rfl, rfl, rfl, ?_⟩
  simp [suspenseRender, effectivelyEmpty]

/-! ## Lazy wrapper (function lazy, src/lazy.ts) -/

/-- What `loadModule` can observe of a value the loader's promise resolves
with: its truthiness and its `default` member — another such value when the
member is present, absent standing for `undefined`. -/
inductive JSValue where
  | noDefault (truthy : Bool)
  | withDefault (truthy : Bool) (d : JSValue)
deriving DecidableEq, Repr

/-- Truthiness of a value. -/
def JSValue.isTruthy : JSValue → Bool
  | .noDefault t => t
  | .withDefault t _ => t

/-- The `undefined` value: falsy, no members. -/
def JSValue.undefinedVal : JSValue := .noDefault false

/-- Member access `m.default` (yielding `undefined` when absent). -/
def JSValue.getDefault : JSValue → JSValue
  | .noDefault _ => JSValue.undefinedVal
  | .withDefault _ d => d

/-- The JS `&&` operator on values. -/
def jsAnd (a b : JSValue) : JSValue := if a.isTruthy then b else a

/-- The JS `||` operator on values. -/
def jsOr (a b : JSValue) : JSValue := if a.isTruthy then a else b

/-- The normalization `loadModule` applies to the fulfillment value:
`component = (m && m.default) || m`. -/
def normalizeModule (m : JSValue) : JSValue := jsOr (jsAnd m m.getDefault) m

/-- Settlement status of the cached promise chain returned by
`loadModule`: still in flight, fulfilled (after `component` was stored), or
rejected (the loader's promise rejected, so the `then` continuation never
ran). -/
inductive PromiseStatus where
  | pending
  | fulfilled
  | rejected
deriving DecidableEq, Repr

/-- The closure state of one `lazy(load)` instance: the cached `promise`
(with a numeric identity so that distinct loads would be distinguishable —
`none` before any load is started), the cached `component`, how many times
the caller-supplied `load` function has been invoked, and the settlement
status of the cached promise. -/
structure LazyInstance where
  promise : Option Nat
  component : Option JSValue
  loaderCalls : Nat
  status : PromiseStatus
deriving DecidableEq, Repr

/-- The closure state right after `lazy(load)` returns: nothing loaded,
nothing cached, the loader never called. -/
def lazyInit : LazyInstance :=
  { promise := none, component := none, loaderCalls := 0,
    status := .pending }

/-- `if (!promise) promise = loadModule();` — the shared at-most-once start
used by both the render path and `preload`.  The fresh promise gets the
current call count as its identity. -/
def ensureLoad (s : LazyInstance) : LazyInstance :=
  match s.promise with
  | some _ => s
  | none =>
      { s with promise := some s.loaderCalls,
               loaderCalls := s.loaderCalls + 1 }

/-- `preload`: start the load if it has not been started, and return the
cached in-flight or completed promise. -/
def lazyPreload (s : LazyInstance) : LazyInstance × Option Nat :=
  let s1 := ensureLoad s
  (s1, s1.promise)

/-- What one render attempt of `LazyComponent` does besides updating the
closure state: return the resolved component applied to the forwarded
props, or throw the cached promise.  A thrown promise records which
settlement continuations the wrapper attached to it during this attempt:
`rerenderOnFulfill` for `promise.then(() => update(1))` — which passes no
second argument, so no rejection continuation is installed
(`rerenderOnReject`). -/
inductive LazyRenderOutcome (π : Type) where
  | rendered (content : JSValue) (props : π)
  | raised (promiseId : Nat) (rerenderOnFulfill : Bool)
      (rerenderOnReject : Bool)
deriving DecidableEq, Repr

/-- One render attempt of `LazyComponent` with the received props:
`if (!promise) promise = loadModule();
if (component !== undefined) return createElement(component, props);
... promise.then(() => update(1)); throw promise;`
(The `if (!ref.current)` guard before attaching the update callback always
passes on this path: the ref is initialized from `component` at a moment
`component` is still undefined and the branch re-assigns `undefined`.) -/
def lazyRender {π : Type} (s : LazyInstance) (props : π) :
    LazyInstance × LazyRenderOutcome π :=
  match (ensureLoad s).component with
  | some c => (ensureLoad s, .rendered c props)
  | none =>
      (ensureLoad s,
        .raised ((ensureLoad s).promise.getD 0) true false)

/-- Fulfillment of the loader's promise with value `m`: the continuation
`loadModule` attached runs once while the chain is in flight, storing
`(m && m.default) || m` into `component`.  Touches neither the cached
promise reference nor the loader call count. -/
def settleFulfill (s : LazyInstance) (m : JSValue) : LazyInstance :=
  match s.promise, s.status with
  | some _, .pending =>
      { s with component := some (normalizeModule m),
               status := .fulfilled }
  | _, _ => s

/-- Rejection of the loader's promise: the `then` continuation of
`loadModule` never runs, so `component` stays unset; the cached promise
chain becomes rejected.  Nothing in `lazy.ts` reacts to the rejection. -/
def settleReject (s : LazyInstance) : LazyInstance :=
  match s.promise, s.status with
  | some _, .pending => { s with status := .rejected }
  | _, _ => s

/-- The events a lazy instance undergoes: calls of `preload()`, render
attempts, and settlement of the loader's promise. -/
inductive LazyEvent where
  | preloadCall
  | renderCall
  | fulfill (m : JSValue)
  | reject
deriving DecidableEq, Repr

/-- State transition of one lazy event (render props are irrelevant to the
closure state). -/
def lazyStep (s : LazyInstance) : LazyEvent → LazyInstance
  | .preloadCall => (lazyPreload s).1
  | .renderCall => (lazyRender s ()).1
  | .fulfill m => settleFulfill s m
  | .reject => settleReject s

/-- The closure state reached from a fresh `lazy(load)` instance after a
list of events. -/
def runLazy (evs : List LazyEvent) : LazyInstance :=
  evs.foldl lazyStep lazyInit

/-- Whether an event is a caller-side operation (`preload()` call or render
attempt) rather than a settlement. -/
def isCall : LazyEvent → Bool
  | .preloadCall => true
  | .renderCall => true
  | _ => false

/-- The closure state right after the first `preload()` call or the first
render attempt: load started (promise identity 0), loader called once,
nothing resolved yet. -/
def startedLazy : LazyInstance :=
  { promise := some 0, component := none, loaderCalls := 1,
    status := .pending }

/-! ## Lemmas about the lazy wrapper -/

theorem ensureLoad_of_started (s : LazyInstance) (j : Nat)
    (h : s.promise = some j) : ensureLoad s = s := by
  unfold ensureLoad
  rw [h]

theorem lazyRender_state {π : Type} (s : LazyInstance) (p : π) :
    (lazyRender s p).1 = ensureLoad s := by
  unfold lazyRender
  cases hc : (ensureLoad s).component <;> simp [hc]

theorem lazyStep_preserves_started (s : LazyInstance) (e : LazyEvent)
    (j : Nat) (h : s.promise = some j) :
    (lazyStep s e).promise = some j ∧
    (lazyStep s e).loaderCalls = s.loaderCalls := by
  cases e with
  | preloadCall =>
      simp [lazyStep, lazyPreload, ensureLoad_of_started s j h, h]
  | renderCall =>
      simp [lazyStep, lazyRender_state, ensureLoad_of_started s j h, h]
  | fulfill m =>
      cases hst : s.status <;>
        simp [lazyStep, settleFulfill, h, hst]
  | reject =>
      cases hst : s.status <;>
        simp [lazyStep, settleReject, h, hst]

theorem foldl_lazy_preserves (evs : List LazyEvent) (s : LazyInstance)
    (j : Nat) (h : s.promise = some j) :
    (evs.foldl lazyStep s).promise = some j ∧
    (evs.foldl lazyStep s).loaderCalls = s.loaderCalls := by
  induction evs generalizing s with
  | nil => exact ⟨h, rfl⟩
  | cons e rest ih =>
      obtain ⟨h1, h2⟩ := lazyStep_preserves_started s e j h
      obtain ⟨h3, h4⟩ := ih (lazyStep s e) h1
      exact ⟨h3, h4.trans h2⟩

/-- States a lazy instance can actually reach: the fresh instance, or a
started instance whose loader ran exactly once, whose promise has identity
0, and whose component is set only by a fulfillment. -/
def LazyReached (s : LazyInstance) : Prop :=
  s = lazyInit ∨
  (s.promise = some 0 ∧ s.loaderCalls = 1 ∧
    (s.status ≠ PromiseStatus.fulfilled → s.component = none))

theorem lazyStep_reached (s : LazyInstance) (e : LazyEvent)
    (h : LazyReached s) : LazyReached (lazyStep s e) := by
  rcases h with h | ⟨hp, hl, hc⟩
  · subst h
    cases e with
    | preloadCall => exact Or.inr ⟨rfl, rfl, fun _ => rfl⟩
    | renderCall => exact Or.inr ⟨rfl, rfl, fun _ => rfl⟩
    | fulfill m => exact Or.inl rfl
    | reject => exact Or.inl rfl
  · cases e with
    | preloadCall =>
        refine Or.inr ?_
        simp [lazyStep, lazyPreload, ensureLoad_of_started s 0 hp, hp, hl]
        exact hc
    | renderCall =>
        refine Or.inr ?_
        simp [lazyStep, lazyRender_state, ensureLoad_of_started s 0 hp,
          hp, hl]
        exact hc
    | fulfill m =>
        cases hst : s.status with
        | pending =>
            refine Or.inr ?_
            simp [lazyStep, settleFulfill, hp, hst, hl]
        | fulfilled =>
            have hstep : lazyStep s (LazyEvent.fulfill m) = s := by
              simp [lazyStep, settleFulfill, hp, hst]
            rw [hstep]
            exact Or.inr ⟨hp, hl, hc⟩
        | rejected =>
            have hstep : lazyStep s (LazyEvent.fulfill m) = s := by
              simp [lazyStep, settleFulfill, hp, hst]
            rw [hstep]
            exact Or.inr ⟨hp, hl, hc⟩
    | reject =>
        cases hst : s.status with
        | pending =>
            have hcn : s.component = none := hc (by simp [hst])
            refine Or.inr ?_
            simp [lazyStep, settleReject, hp, hst, hl, hcn]
        | fulfilled =>
            have hstep : lazyStep s LazyEvent.reject = s := by
              simp [lazyStep, settleReject, hp, hst]
            rw [hstep]
            exact Or.inr ⟨hp, hl, hc⟩
        | rejected =>
            have hstep : lazyStep s LazyEvent.reject = s := by
              simp [lazyStep, settleReject, hp, hst]
            rw [hstep]
            exact Or.inr ⟨hp, hl, hc⟩

theorem foldl_lazy_reached (evs : List LazyEvent) (s : LazyInstance)
    (h : LazyReached s) : LazyReached (evs.foldl lazyStep s) := by
  induction evs generalizing s with
  | nil => exact h
  | cons e rest ih => exact ih (lazyStep s e) (lazyStep_reached s e h)

theorem runLazy_reached (evs : List LazyEvent) :
    LazyReached (runLazy evs) :=
  foldl_lazy_reached evs lazyInit (Or.inl rfl)

/-- A started instance whose cached promise has rejected: component unset,
promise and loader-call count fixed. -/
def RejectedState (s : LazyInstance) : Prop :=
  s.promise = some 0 ∧ s.component = none ∧ s.loaderCalls = 1 ∧
    s.status = PromiseStatus.rejected

theorem lazyStep_rejected (s : LazyInstance) (e : LazyEvent)
    (h : RejectedState s) : RejectedState (lazyStep s e) := by
  obtain ⟨hp, hc, hl, hst⟩ := h
  cases e with
  | preloadCall =>
      simp [lazyStep, lazyPreload, ensureLoad_of_started s 0 hp]
      exact ⟨hp, hc, hl, hst⟩
  | renderCall =>
      simp [lazyStep, lazyRender_state, ensureLoad_of_started s 0 hp]
      exact ⟨hp, hc, hl, hst⟩
  | fulfill m =>
      simp [lazyStep, settleFulfill, hp, hst]
      exact ⟨hp, hc, hl, hst⟩
  | reject =>
      simp [lazyStep, settleReject, hp, hst]
      exact ⟨hp, hc, hl, hst⟩

theorem foldl_lazy_rejected (evs : List LazyEvent) (s : LazyInstance)
    (h : RejectedState s) : RejectedState (evs.foldl lazyStep s) := by
  induction evs generalizing s with
  | nil => exact h
  | cons e rest ih => exact ih (lazyStep s e) (lazyStep_rejected s e h)

/-! ## Claim theorems for the lazy wrapper -/

/-- Claim C7 as stated is refuted at a concrete input: at the first render
attempt of a fresh instance (load just started, not yet resolved), the
wrapper runs `promise.then(() => update(1))`, which installs a continuation
for fulfillment only — the second `then` argument is absent, so no
re-render is arranged for the case the load rejects, contrary to the
claim's "once the load settles (whether it fulfills or rejects)". -/
theorem lazy_render_no_reject_rerender :
    (lazyRender lazyInit (0 : Nat)).2
      = LazyRenderOutcome.raised 0 true false ∧
    (lazyRender lazyInit (0 : Nat)).2
      ≠ LazyRenderOutcome.raised 0 true true := by
  decide

/-- Claim C7 (amended): every render attempt starts the load if not already
started and never a second time; if the load has resolved, the resolved
content is returned immediately with the received props forwarded and no
signal is raised; if not, the cached in-flight promise is raised as the
pending signal with a re-render arranged only for its fulfillment (none for
rejection — on a rejected load only an enclosing boundary's settlement
continuation reacts). -/
theorem lazy_render_behavior {π : Type} (s : LazyInstance) (p : π)
    (c : JSValue) :
    (s.promise.isSome = true → (lazyRender s p).1 = s) ∧
    (s.promise = none →
      (lazyRender s p).1.loaderCalls = s.loaderCalls + 1 ∧
      (lazyRender s p).1.promise = some s.loaderCalls) ∧
    (s.component = some c →
      (lazyRender s p).2 = LazyRenderOutcome.rendered c p) ∧
    (s.component = none →
      (lazyRender s p).2 = LazyRenderOutcome.raised
        ((lazyRender s p).1.promise.getD 0) true false) := by
  refine ⟨?_, ?_, ?_, ?_⟩
  · intro hsome
    obtain ⟨j, hj⟩ := Option.isSome_iff_exists.mp hsome
    rw [lazyRender_state, ensureLoad_of_started s j hj]
  · intro hnone
    rw [lazyRender_state]
    unfold ensureLoad
    rw [hnone]
    exact ⟨rfl, rfl⟩
  · intro hcomp
    have he : (ensureLoad s).component = some c := by
      unfold ensureLoad
      cases s.promise <;> simp [hcomp]
    unfold lazyRender
    rw [he]
  · intro hcomp
    have he : (ensureLoad s).component = none := by
      unfold ensureLoad
      cases s.promise <;> simp [hcomp]
    rw [lazyRender_state]
    unfold lazyRender
    rw [he]

/-- An instance whose load has completed: component cached, promise
fulfilled. -/
def resolvedLazyExample : LazyInstance :=
  { promise := some 0, component := some (JSValue.noDefault true),
    loaderCalls := 1, status := .fulfilled }

/-- Closed instance of `lazy_render_behavior`: rendering a resolved
instance forwards the props to the cached component without starting a
second load; the first render of a fresh instance starts the load and
raises the cached promise with no rejection continuation. -/
theorem lazy_render_behavior_witness :
    (lazyRender resolvedLazyExample (7 : Nat)).1 = resolvedLazyExample ∧
    (lazyRender lazyInit (7 : Nat)).1.loaderCalls
      = lazyInit.loaderCalls + 1 ∧
    (lazyRender resolvedLazyExample (7 : Nat)).2
      = LazyRenderOutcome.rendered (JSValue.noDefault true) 7 ∧
    (lazyRender lazyInit (7 : Nat)).2 = LazyRenderOutcome.raised
      ((lazyRender lazyInit (7 : Nat)).1.promise.getD 0) true false :=
  ⟨(lazy_render_behavior resolvedLazyExample 7
      (JSValue.noDefault true)).1 (by decide),
   ((lazy_render_behavior lazyInit 7 (JSValue.noDefault true)).2.1 rfl).1,
   (lazy_render_behavior resolvedLazyExample 7
      (JSValue.noDefault true)).2.2.1 rfl,
   (lazy_render_behavior lazyInit 7 (JSValue.noDefault true)).2.2.2 rfl⟩

/-- Claim C8: along every interleaving of `preload()` calls and render
attempts (at least one of either), the caller-supplied loader runs exactly
once — the first operation starts it and every later one reuses the cached
promise — and `preload()` called at any such point returns that same
promise (identity 0, the one created by the single loader invocation). -/
theorem lazy_loader_called_exactly_once (evs : List LazyEvent)
    (h : ∀ e ∈ evs, isCall e = true) (hne : evs ≠ []) :
    (runLazy evs).loaderCalls = 1 ∧
    (runLazy evs).promise = some 0 ∧
    (lazyPreload (runLazy evs)).2 = some 0 := by
  cases evs with
  | nil => exact absurd rfl hne
  | cons e rest =>
      have he : isCall e = true := h e (List.mem_cons_self e rest)
      have hfirst : lazyStep lazyInit e = startedLazy := by
        cases e <;> first | rfl | simp [isCall] at he
      have hrun : runLazy (e :: rest) = rest.foldl lazyStep startedLazy := by
        unfold runLazy
        rw [List.foldl_cons, hfirst]
      obtain ⟨h1, h2⟩ := foldl_lazy_preserves rest startedLazy 0 rfl
      rw [hrun]
      refine ⟨h2.trans rfl, h1, ?_⟩
      simp [lazyPreload, ensureLoad_of_started _ 0 h1, h1]

/-- Closed instance of `lazy_loader_called_exactly_once`: preload, then a
render attempt, then a second preload — one loader call, and the final
preload returns the promise with identity 0. -/
theorem lazy_loader_called_exactly_once_witness :
    (runLazy [LazyEvent.preloadCall, LazyEvent.renderCall,
        LazyEvent.preloadCall]).loaderCalls = 1 ∧
    (runLazy [LazyEvent.preloadCall, LazyEvent.renderCall,
        LazyEvent.preloadCall]).promise = some 0 ∧
    (lazyPreload (runLazy [LazyEvent.preloadCall, LazyEvent.renderCall,
        LazyEvent.preloadCall])).2 = some 0 :=
  lazy_loader_called_exactly_once
    [LazyEvent.preloadCall, LazyEvent.renderCall, LazyEvent.preloadCall]
    (by decide) (by decide)

/-- Claim C9: `component = (m && m.default) || m`.  A fulfillment value that
exposes a `default` member is an object or function in JS and hence truthy,
and under the declared loader type
`load: () => Promise<(default: T) or T>` with `T extends FunctionComponent`
the default export is a function, hence truthy too — that is the `hd`
hypothesis.  Under it, the value cached (and then rendered) is the
`default` member; a fulfillment value with no `default` member is cached
and rendered as itself, whatever its truthiness. -/
theorem lazy_resolution_normalization (d : JSValue) (t : Bool)
    (hd : d.isTruthy = true) :
    normalizeModule (JSValue.withDefault true d) = d ∧
    normalizeModule (JSValue.noDefault t) = JSValue.noDefault t ∧
    (settleFulfill startedLazy (JSValue.withDefault true d)).component
      = some d ∧
    (settleFulfill startedLazy (JSValue.noDefault t)).component
      = some (JSValue.noDefault t) ∧
    (lazyRender (settleFulfill startedLazy (JSValue.withDefault true d))
        (0 : Nat)).2 = LazyRenderOutcome.rendered d 0 := by
  have h1 : normalizeModule (JSValue.withDefault true d) = d := by
    show jsOr d (JSValue.withDefault true d) = d
    simp [jsOr, hd]
  have h2 : normalizeModule (JSValue.noDefault t) = JSValue.noDefault t := by
    cases t <;>
      simp [normalizeModule, jsAnd, jsOr, JSValue.isTruthy,
        JSValue.getDefault, JSValue.undefinedVal]
  have h3 : settleFulfill startedLazy (JSValue.withDefault true d)
      = { promise := some 0, component := some d, loaderCalls := 1,
          status := .fulfilled } := by
    simp [settleFulfill, startedLazy, h1]
  refine ⟨h1, h2, ?_, ?_, ?_⟩
  · rw [h3]
  · simp [settleFulfill, startedLazy, h2]
  · rw [h3]
    rfl

/-- Closed instance of `lazy_resolution_normalization` at a truthy
default-export value. -/
theorem lazy_resolution_normalization_witness :
    normalizeModule (JSValue.withDefault true (JSValue.noDefault true))
      = JSValue.noDefault true ∧
    normalizeModule (JSValue.noDefault true) = JSValue.noDefault true ∧
    (settleFulfill startedLazy
        (JSValue.withDefault true (JSValue.noDefault true))).component
      = some (JSValue.noDefault true) ∧
    (settleFulfill startedLazy (JSValue.noDefault true)).component
      = some (JSValue.noDefault true) ∧
    (lazyRender (settleFulfill startedLazy
        (JSValue.withDefault true (JSValue.noDefault true)))
        (0 : Nat)).2
      = LazyRenderOutcome.rendered (JSValue.noDefault true) 0 :=
  lazy_resolution_normalization (JSValue.noDefault true) true rfl

/-- Claim C10: once the loader's promise has rejected, the cached component
is never set and the cached promise is never cleared — after any further
events the instance still holds the same rejected promise (identity 0) with
no component and a loader-call count of one; every subsequent render
attempt throws that same promise again (no retry, since the load is never
restarted), and the raised signal carries no wrapper-installed rejection
continuation — only an enclosing boundary's settlement continuation reacts
to the rejection. -/
theorem lazy_rejection_no_retry (evs evs' : List LazyEvent)
    (h : (runLazy evs).status = PromiseStatus.rejected) :
    (runLazy evs).component = none ∧
    (runLazy evs).promise = some 0 ∧
    (runLazy evs).loaderCalls = 1 ∧
    (runLazy (evs ++ evs')).status = PromiseStatus.rejected ∧
    (runLazy (evs ++ evs')).component = none ∧
    (runLazy (evs ++ evs')).promise = some 0 ∧
    (runLazy (evs ++ evs')).loaderCalls = 1 ∧
    (lazyRender (runLazy (evs ++ evs')) (0 : Nat)).2
      = LazyRenderOutcome.raised 0 true false ∧
    (lazyRender (runLazy (evs ++ evs')) (0 : Nat)).1.loaderCalls = 1 := by
  have hreach := runLazy_reached evs
  have hrej : RejectedState (runLazy evs) := by
    rcases hreach with heq | ⟨hp, hl, hc⟩
    · rw [heq] at h
      exact absurd h (by simp [lazyInit])
    · exact ⟨hp, hc (by rw [h]; simp), hl, h⟩
  have happ : runLazy (evs ++ evs') = evs'.foldl lazyStep (runLazy evs) := by
    unfold runLazy
    rw [List.foldl_append]
  have hrej' : RejectedState (runLazy (evs ++ evs')) := by
    rw [happ]
    exact foldl_lazy_rejected evs' (runLazy evs) hrej
  obtain ⟨hp0, hc0, hl0, _⟩ := hrej
  obtain ⟨hp1, hc1, hl1, hst1⟩ := hrej'
  have hstate : (lazyRender (runLazy (evs ++ evs')) (0 : Nat)).1
      = runLazy (evs ++ evs') := by
    rw [lazyRender_state, ensureLoad_of_started _ 0 hp1]
  have hout : (lazyRender (runLazy (evs ++ evs')) (0 : Nat)).2
      = LazyRenderOutcome.raised 0 true false := by
    unfold lazyRender
    rw [ensureLoad_of_started _ 0 hp1, hc1, hp1]
    rfl
  refine ⟨hc0, hp0, hl0, hst1, hc1, hp1, hl1, hout, ?_⟩
  rw [hstate]
  exact hl1

/-- Closed instance of `lazy_rejection_no_retry`: start the load with
`preload()`, let it reject, then make another render attempt — the same
promise 0 is thrown again and the loader is not re-invoked. -/
theorem lazy_rejection_no_retry_witness :
    (runLazy [LazyEvent.preloadCall, LazyEvent.reject]).component
      = none ∧
    (runLazy [LazyEvent.preloadCall, LazyEvent.reject]).promise
      = some 0 ∧
    (runLazy [LazyEvent.preloadCall, LazyEvent.reject]).loaderCalls = 1 ∧
    (runLazy ([LazyEvent.preloadCall, LazyEvent.reject]
        ++ [LazyEvent.renderCall])).status = PromiseStatus.rejected ∧
    (runLazy ([LazyEvent.preloadCall, LazyEvent.reject]
        ++ [LazyEvent.renderCall])).component = none ∧
    (runLazy ([LazyEvent.preloadCall, LazyEvent.reject]
        ++ [LazyEvent.renderCall])).promise = some 0 ∧
    (runLazy ([LazyEvent.preloadCall, LazyEvent.reject]
        ++ [LazyEvent.renderCall])).loaderCalls = 1 ∧
    (lazyRender (runLazy ([LazyEvent.preloadCall, LazyEvent.reject]
        ++ [LazyEvent.renderCall])) (0 : Nat)).2
      = LazyRenderOutcome.raised 0 true false ∧
    (lazyRender (runLazy ([LazyEvent.preloadCall, LazyEvent.reject]
        ++ [LazyEvent.renderCall])) (0 : Nat)).1.loaderCalls = 1 :=
  lazy_rejection_no_retry [LazyEvent.preloadCall, LazyEvent.reject]
    [LazyEvent.renderCall] (by decide)

end PreactSuspense
